import Mathlib

/-!
Shallow embedding of the currency_converter program
(files currency_converter.py and converters/converters.py).

Conventions used throughout:
* Python floats are modelled as exact rationals; timestamps are integers (epoch seconds; nothing in the claims depends on fractional times).
* A JSON cache file is modelled by `CacheFile`: `missing` covers a file that
  is absent, unreadable, not valid JSON, or whose envelope lacks a usable
  timestamp (every case the first try-block of the loaders turns into the
  missing/corrupted outcome via FileNotFoundError, KeyError, TypeError or
  JSONDecodeError); `present ts pl` is a parseable envelope with a valid
  numeric timestamp whose payload entry `pl` may itself be absent
  (`pl = none` models an envelope without the payload key).
* A remote fetch is an `Option`: `none` models the request raising.
-/

/-- Error tags carried by `ConversionError` in converters.py. -/
inductive CErrType where
  | xe_error
  | oer_error
  | unsupported
  | no_currs_data
deriving DecidableEq

/-- One value of the currencies map: the per-code dictionary
with symbol and name fields (converters.py, get_currencies). -/
structure CurrEntry where
  symbol : String
  name : String
deriving DecidableEq

/-- The currencies map code -> entry, in dict iteration order. -/
abbrev Currencies := List (String × CurrEntry)

/-- The OER rate table code -> units per 1 USD, in dict iteration order. -/
abbrev Rates := List (String × ℚ)

/-- A successful JSON answer of the OER latest.json endpoint: it carries its
own timestamp and the rate table (converters.py, load_rates). -/
structure OERResponse where
  timestamp : ℤ
  rates : Rates
deriving DecidableEq

/-- The persisted cache envelope written by save_currencies / save_rates. -/
structure CacheEnvelope (α : Type) where
  timestamp : ℤ
  payload : α
deriving DecidableEq

/-- State of a cache file as the loaders see it; see the module comment. -/
inductive CacheFile (α : Type) where
  | missing
  | present (timestamp : ℤ) (payload : Option α)

/-- Outcome of a loader run that does not return normally:
either a raised ConversionError, or an uncaught Python KeyError
(the payload access in the else-branch and in the fetch-failure handler of
load_currencies sits outside the guarded try-block, so a parseable envelope
with a valid timestamp but no payload key crashes the process). -/
inductive LoadErr where
  | convError (t : CErrType)
  | keyError
deriving DecidableEq

/-- ConverterCommon.save_currencies (converters.py lines 95-102): writes a
whole fresh envelope whose timestamp is the current time. -/
def save_currencies (now : ℤ) (currencies : Currencies) :
    CacheEnvelope Currencies :=
  ⟨now, currencies⟩

/-- ConverterOER.save_rates (converters.py lines 266-273): writes a whole
fresh envelope whose timestamp is the timestamp field of the OER response,
not the local current time. -/
def save_rates (response : OERResponse) : CacheEnvelope Rates :=
  ⟨response.timestamp, response.rates⟩

/-- ConverterCommon.load_currencies (converters.py lines 36-78).
Returns the adopted currencies map together with the envelope written by
save_currencies, if any.  Mirrors the source control flow: a readable fresh
cache is used directly; an expired or missing cache triggers a fetch; a
failed fetch falls back to the stale payload when one was readable and
raises ConversionError(no_currs_data) when none was; a successful fetch is
adopted and saved with the current time. -/
def load_currencies (now curr_exp : ℤ) (cache : CacheFile Currencies)
    (fetch : Option Currencies) :
    Except LoadErr (Currencies × Option (CacheEnvelope Currencies)) :=
  match cache with
  | .missing =>
    match fetch with
    | some p => .ok (p, some (save_currencies now p))
    | none => .error (.convError .no_currs_data)
  | .present ts pl =>
    if now - ts > curr_exp then
      match fetch with
      | some p => .ok (p, some (save_currencies now p))
      | none =>
        match pl with
        | some p => .ok (p, none)
        | none => .error .keyError
    else
      match pl with
      | some p => .ok (p, none)
      | none => .error .keyError

/-- ConverterOER.load_rates (converters.py lines 229-264).
Same first try-block as load_currencies, but the second block differs:
a failed fetch always raises ConversionError(oer_error); there is no
stale-payload fallback and no missing/stale distinction.  A successful
fetch is adopted and saved via save_rates. -/
def load_rates (now rates_exp : ℤ) (cache : CacheFile Rates)
    (fetch : Option OERResponse) :
    Except LoadErr (Rates × Option (CacheEnvelope Rates)) :=
  match cache with
  | .missing =>
    match fetch with
    | some resp => .ok (resp.rates, some (save_rates resp))
    | none => .error (.convError .oer_error)
  | .present ts pl =>
    if now - ts > rates_exp then
      match fetch with
      | some resp => .ok (resp.rates, some (save_rates resp))
      | none => .error (.convError .oer_error)
    else
      match pl with
      | some p => .ok (p, none)
      | none => .error .keyError

/-- Fields ConverterXE.get_response extracts from the scrape document
(converters.py lines 160-171): the parsed numeric amount (grouping commas
already stripped) and the two echoed currency codes. -/
structure XEResponse where
  converted : ℚ
  fromCurr : String
  toCurr : String
deriving DecidableEq

/-- ConverterXE.check_response (converters.py lines 173-184): returns
False when either echoed code differs from the requested one, and falls
off the end (None) otherwise. -/
def ConverterXE.check_response (pFrom pTo : String) (response : XEResponse) :
    Option Bool :=
  if response.fromCurr ≠ pFrom ∨ response.toCurr ≠ pTo then some false
  else none

/-- ConverterXE.convert (converters.py lines 128-158).  The get_response
call is modelled by its outcome: `none` when it raises (transport or parse
failure), `some response` otherwise.  Any raise becomes
ConversionError(xe_error); a response failing check_response (which is
"is not False" in the source, hence the `≠ some false` test) becomes
ConversionError(unsupported); otherwise the parsed amount is returned. -/
def ConverterXE.convert (getResponse : Option XEResponse)
    (in_currency out_currency : String) : Except CErrType ℚ :=
  match getResponse with
  | none => .error .xe_error
  | some response =>
    if ConverterXE.check_response in_currency out_currency response ≠ some false
    then .ok response.converted
    else .error .unsupported

/-- ConverterOER.convert (converters.py lines 197-227) with the rate table
already loaded (the lazy load_rates step is modelled separately by
load_rates).  A missing key raises KeyError, caught and re-raised as
ConversionError(unsupported).  When neither side is USD the function calls
itself once with the intermediate amount and USD as input currency. -/
def ConverterOER.convert (rates : Rates) (amount : ℚ)
    (in_currency out_currency : String) : Except CErrType ℚ :=
  if _h : in_currency = "USD" then
    match rates.lookup out_currency with
    | some r => .ok (amount * r)
    | none => .error .unsupported
  else if out_currency = "USD" then
    match rates.lookup in_currency with
    | some r => .ok (amount / r)
    | none => .error .unsupported
  else
    match rates.lookup in_currency with
    | some r => ConverterOER.convert rates (amount / r) "USD" out_currency
    | none => .error .unsupported
termination_by (if in_currency = "USD" then 0 else 1)
decreasing_by simp_all

/-- Instrumented copy of ConverterOER.convert that additionally records the
in_currency argument of every recursive self-call, to state the recursion
bound of the source. -/
def ConverterOER.convertT (rates : Rates) (amount : ℚ)
    (in_currency out_currency : String) :
    Except CErrType ℚ × List String :=
  if _h : in_currency = "USD" then
    match rates.lookup out_currency with
    | some r => (.ok (amount * r), [])
    | none => (.error .unsupported, [])
  else if out_currency = "USD" then
    match rates.lookup in_currency with
    | some r => (.ok (amount / r), [])
    | none => (.error .unsupported, [])
  else
    match rates.lookup in_currency with
    | some r =>
      let rec_result := ConverterOER.convertT rates (amount / r) "USD" out_currency
      (rec_result.1, "USD" :: rec_result.2)
    | none => (.error .unsupported, [])
termination_by (if in_currency = "USD" then 0 else 1)
decreasing_by simp_all

/-- The two conversion methods of the application. -/
inductive Conv where
  | xe
  | oer
deriving DecidableEq

/-- Outcome of one converter.convert call as the orchestrator sees it.
By construction of the two converters a call either returns a number,
raises ConversionError(unsupported), or raises its strategy-level network
failure (xe_error for ConverterXE, oer_error for ConverterOER); the
environment of the orchestrator model is typed accordingly. -/
inductive StratOutcome where
  | ok (v : ℚ)
  | unsupported
  | network
deriving DecidableEq

/-- The ConversionError tag a converter raises on a network-level failure. -/
def netErr : Conv → CErrType
  | .xe => .xe_error
  | .oer => .oer_error

/-- Boolean test for the network outcome. -/
def StratOutcome.isNetwork : StratOutcome → Bool
  | .network => true
  | _ => false

/-- Boolean test for the unsupported outcome. -/
def StratOutcome.isUnsupported : StratOutcome → Bool
  | .unsupported => true
  | _ => false

/-- Python round(x, 2) as used in App.get_conversion (line 243): round to a
whole number of hundredths.  Floats are modelled as exact rationals, so the
model rounds the exact value to the nearest hundredth; the tie-breaking
rule (Python rounds half to even on the underlying binary float) is not
relied on by any theorem below - they only use that the result is an
integer number of hundredths. -/
def round2 (x : ℚ) : ℚ := (round (x * 100) : ℚ) / 100

/-- A rational is rounded to 2 decimal places when it is an integer number
of hundredths. -/
def rounded2 (q : ℚ) : Prop := ∃ n : ℤ, q = (n : ℚ) / 100

/-- The loop of App.get_conversion (currency_converter.py lines 226-244)
over the chosen output currencies.  A target equal to the input currency is
answered with the input amount directly; otherwise converter.convert runs:
a numeric result is rounded to 2 places and recorded, an unsupported error
skips the target, and any other ConversionError aborts the whole loop. -/
def get_conversion (conv : Conv) (strat : Conv → String → StratOutcome)
    (amount : ℚ) (in_currency : Option String) (targets : List String) :
    Except CErrType (List (String × ℚ)) :=
  match targets with
  | [] => .ok []
  | t :: ts =>
    if some t = in_currency then
      match get_conversion conv strat amount in_currency ts with
      | .ok m => .ok ((t, amount) :: m)
      | .error e => .error e
    else
      match strat conv t with
      | .ok v =>
        match get_conversion conv strat amount in_currency ts with
        | .ok m => .ok ((t, round2 v) :: m)
        | .error e => .error e
      | .unsupported => get_conversion conv strat amount in_currency ts
      | .network => .error (netErr conv)

/-- Instrumented copy of get_conversion that additionally records every
target for which converter.convert was actually invoked. -/
def get_conversionT (conv : Conv) (strat : Conv → String → StratOutcome)
    (amount : ℚ) (in_currency : Option String) (targets : List String) :
    Except CErrType (List (String × ℚ)) × List String :=
  match targets with
  | [] => (.ok [], [])
  | t :: ts =>
    if some t = in_currency then
      match get_conversionT conv strat amount in_currency ts with
      | (.ok m, tr) => (.ok ((t, amount) :: m), tr)
      | (.error e, tr) => (.error e, tr)
    else
      match strat conv t with
      | .ok v =>
        match get_conversionT conv strat amount in_currency ts with
        | (.ok m, tr) => (.ok ((t, round2 v) :: m), t :: tr)
        | (.error e, tr) => (.error e, t :: tr)
      | .unsupported =>
        match get_conversionT conv strat amount in_currency ts with
        | (r, tr) => (r, t :: tr)
      | .network => (.error (netErr conv), [t])

/-- The single-quote character used by the Python repr of a dict. -/
def pySingleQuote : Char := Char.ofNat 39

/-- Python str(values) for one currencies entry, as a character list:
a brace-delimited dict repr with single-quoted keys and values. -/
def entryRepr (e : CurrEntry) : List Char :=
  [Char.ofNat 123, pySingleQuote] ++ "symbol".toList
    ++ [pySingleQuote, ':', ' ', pySingleQuote] ++ e.symbol.toList
    ++ [pySingleQuote, ',', ' ', pySingleQuote] ++ "name".toList
    ++ [pySingleQuote, ':', ' ', pySingleQuote] ++ e.name.toList
    ++ [pySingleQuote, Char.ofNat 125]

/-- The search text built by App.check_currency (currency_converter.py line
147) for a candidate symbol. -/
def symbolNeedle (s : String) : List Char :=
  [pySingleQuote] ++ "symbol".toList
    ++ [pySingleQuote, ':', ' ', pySingleQuote] ++ s.toList ++ [pySingleQuote]

/-- Bool test: the first list starts the second one. -/
def charsPrefix : List Char → List Char → Bool
  | [], _ => true
  | _ :: _, [] => false
  | a :: as, b :: bs => a == b && charsPrefix as bs

/-- Bool test: the needle occurs contiguously inside the haystack, the
Python `in` operator on strings. -/
def charsInfix (needle : List Char) : List Char → Bool
  | [] => needle.isEmpty
  | b :: bs => charsPrefix needle (b :: bs) || charsInfix needle bs

/-- The symbol-matching loop of App.check_currency (lines 146-148): the
first code whose stringified entry contains the needle as a substring. -/
def symbolLookup (currencies : Currencies) (s : String) : Option String :=
  (currencies.find? (fun p => charsInfix (symbolNeedle s) (entryRepr p.2))).map
    (fun p => p.1)

/-- Which currency a token is checked as. -/
inductive Which where
  | input
  | output
deriving DecidableEq

/-- App.check_currency (currency_converter.py lines 131-156).  The error
value models the raised ValueError. -/
def check_currency (currencies : Currencies) (tok : Option String)
    (which : Which) : Except Unit (Option String) :=
  match tok with
  | none => .ok none
  | some s =>
    if (currencies.lookup s).isSome then .ok (some s)
    else
      match symbolLookup currencies s with
      | some code => .ok (some code)
      | none =>
        match which with
        | .output => .ok none
        | .input => .error ()

/-- The target-selection prologue of App.get_conversion (lines 218-224):
a resolved output currency gives a single target; otherwise either every
directory-known code (override_currencies set to False, modelled none) or
the configured override list. -/
def selectTargets (out_currency : Option String)
    (override_currencies : Option (List String)) (known : List String) :
    List String :=
  match out_currency with
  | some c => [c]
  | none =>
    match override_currencies with
    | none => known
    | some l => l

/-- Everything outside the program that one request can observe: the config
file state, the clock, the currencies cache file and remote directory, the
request parameters, and the outcome of each converter on each target code.
The same environment is consulted again by the recursive retry in main,
modelling that the retry carries the identical request and sees the same
external world. -/
structure Env where
  configOk : Bool
  now : ℤ
  curr_exp : ℤ
  currCache : CacheFile Currencies
  currFetch : Option Currencies
  amount : ℚ
  inToken : Option String
  outToken : Option String
  override_currencies : Option (List String)
  configConverter : Conv
  strat : Conv → String → StratOutcome

/-- How App construction can fail, in the order main's except-clauses see
it: a missing or corrupted config file, a ValueError from check_currency on
the input token, a ConversionError from load_currencies, or an uncaught
KeyError from load_currencies (which no except-clause of main catches). -/
inductive InitErr where
  | config
  | badInput
  | convErr
  | keyError
deriving DecidableEq

/-- The fields of App that the conversion path reads after __init__. -/
structure AppState where
  currencies : Currencies
  amount : ℚ
  in_currency : Option String
  out_currency : Option String
deriving DecidableEq

/-- App.__init__ (currency_converter.py lines 88-100): load the config,
build the converter (which runs load_currencies), then resolve the input
and output tokens in that order. -/
def appInit (env : Env) : Except InitErr AppState :=
  if env.configOk = false then .error .config
  else
    match load_currencies env.now env.curr_exp env.currCache env.currFetch with
    | .error .keyError => .error .keyError
    | .error (.convError _) => .error .convErr
    | .ok (currs, _) =>
      match check_currency currs env.inToken .input with
      | .error _ => .error .badInput
      | .ok inC =>
        match check_currency currs env.outToken .output with
        | .ok outC => .ok ⟨currs, env.amount, inC, outC⟩
        | .error _ => .error .badInput

/-- The successful output dictionary of App.run (lines 188-194). -/
structure AppOutput where
  amount : ℚ
  in_currency : Option String
  output : List (String × ℚ)
deriving DecidableEq

/-- App.run on the conversion path (lines 187-196) together with the
target selection and loop of get_conversion. -/
def appRun (env : Env) (st : AppState) (conv : Conv) :
    Except CErrType AppOutput :=
  match get_conversion conv env.strat st.amount st.in_currency
      (selectTargets st.out_currency env.override_currencies
        (st.currencies.map Prod.fst)) with
  | .ok m => .ok ⟨st.amount, st.in_currency, m⟩
  | .error e => .error e

/-- A Python value returned by main: either a plain message, the output
dictionary of a successful run, or - because the fall-through return wraps
whatever the recursive retry returned inside a fresh list - a nested
severity/payload pair. -/
inductive MainPayload where
  | message (s : String)
  | success (o : AppOutput)
  | nested (severity : ℕ) (payload : MainPayload)
deriving DecidableEq

/-- Result of one main invocation: the returned pair together with the
ordered list of strategies actually run, or a crash for an uncaught Python
exception.  The attempts list instruments converter.convert usage: one
entry per App.run call that reached the conversion loop. -/
inductive MainResult where
  | returns (severity : ℕ) (payload : MainPayload) (attempts : List Conv)
  | crash (attempts : List Conv)
deriving DecidableEq

/-- Function main (currency_converter.py lines 257-311).  Faithful points:
the converter is the override when given, else the configured one; App
construction failures map to the direct returns of lines 281-289 (and an
uncaught KeyError crashes); a ConversionError from App.run returns
severity 2 when first_try is False, else retries once with the other
method; the retried result r is returned as the wrapped pair [0, r] by the
fall-through return [0, output] of line 311; an error tag that is neither
xe_error nor oer_error would leave the Python variable output unbound and
crash at that same return. -/
def main (env : Env) (override_converter : Option Conv) (first_try : Bool) :
    MainResult :=
  let conv := override_converter.getD env.configConverter
  match appInit env with
  | .error .config =>
    .returns 2 (.message "Configuration file is missing or corrupted.") []
  | .error .badInput =>
    .returns 1
      (.message "Given input currency is not a valid currency code or symbol.")
      []
  | .error .convErr =>
    .returns 2 (.message "No currencies data available.") []
  | .error .keyError => .crash []
  | .ok st =>
    match appRun env st conv with
    | .ok out => .returns 0 (.success out) [conv]
    | .error e =>
      if _h : first_try = false then
        .returns 2 (.message "Conversion failed.") [conv]
      else
        match e with
        | .xe_error =>
          match main env (some .oer) false with
          | .returns s p tr => .returns 0 (.nested s p) (conv :: tr)
          | .crash tr => .crash (conv :: tr)
        | .oer_error =>
          match main env (some .xe) false with
          | .returns s p tr => .returns 0 (.nested s p) (conv :: tr)
          | .crash tr => .crash (conv :: tr)
        | _ => .crash [conv]
termination_by (if first_try then 1 else 0)
decreasing_by all_goals simp_all

/-- A small concrete currencies directory used by the concrete theorems. -/
def demoCurrs : Currencies :=
  [("USD", ⟨"$", "US Dollar"⟩), ("EUR", ⟨"€", "Euro"⟩),
   ("GBP", ⟨"£", "Pound Sterling"⟩), ("CZK", ⟨"Kč", "Czech Koruna"⟩)]

/-- A small concrete USD-denominated rate table. -/
def demoRates : Rates := [("USD", 1), ("EUR", 9/10), ("GBP", 4/5)]

/-- Strategy environment in which every convert call raises its
network-level ConversionError. -/
def networkStrat : Conv → String → StratOutcome := fun _ _ => .network

/-- Strategy environment in which the GBP target raises unsupported and
every other call returns 90. -/
def skipGBPStrat : Conv → String → StratOutcome :=
  fun _ t => if t = "GBP" then .unsupported else .ok 90

/-- Strategy environment in which every convert call returns 90. -/
def okStrat : Conv → String → StratOutcome := fun _ _ => .ok 90

/-- A request environment with a fresh readable currencies cache, a dead
network (directory fetch fails and every convert call raises its network
error), amount 100 from USD to EUR, config preferring the XE method. -/
def bothFailEnv : Env :=
  { configOk := true, now := 1000, curr_exp := 100,
    currCache := .present 950 (some demoCurrs), currFetch := none,
    amount := 100, inToken := some "USD", outToken := some "EUR",
    override_currencies := none, configConverter := .xe,
    strat := networkStrat }

/-- Same dead-network environment with no currencies cache at all. -/
def noCurrsEnv : Env := { bothFailEnv with currCache := .missing }

/-- Environment whose input token resolves to no code and no symbol, with
working strategies. -/
def badInEnv : Env := { bothFailEnv with inToken := some "QQQ", strat := okStrat }

theorem rounded2_round2 (x : ℚ) : rounded2 (round2 x) :=
  ⟨round (x * 100), rfl⟩

theorem convert_usd (rates : Rates) (amount : ℚ) (out_currency : String) :
    ConverterOER.convert rates amount "USD" out_currency =
      match rates.lookup out_currency with
      | some r => .ok (amount * r)
      | none => .error .unsupported := by
  rw [ConverterOER.convert]
  simp

theorem convertT_usd (rates : Rates) (amount : ℚ) (out_currency : String) :
    ConverterOER.convertT rates amount "USD" out_currency =
      (ConverterOER.convert rates amount "USD" out_currency, []) := by
  rw [ConverterOER.convertT, convert_usd]
  cases rates.lookup out_currency <;> simp

theorem convertT_fst (rates : Rates) (amount : ℚ)
    (in_currency out_currency : String) :
    (ConverterOER.convertT rates amount in_currency out_currency).1 =
      ConverterOER.convert rates amount in_currency out_currency := by
  by_cases h1 : in_currency = "USD"
  · subst h1
    rw [convertT_usd]
  · by_cases h2 : out_currency = "USD"
    · subst h2
      rw [ConverterOER.convertT, ConverterOER.convert]
      simp only [h1]
      cases rates.lookup in_currency <;> simp [h1]
    · rw [ConverterOER.convertT, ConverterOER.convert]
      simp only [h1, h2]
      cases rates.lookup in_currency <;> simp [h1, h2, convertT_usd]

theorem gc_error_net (conv : Conv) (strat : Conv → String → StratOutcome)
    (amount : ℚ) (in_currency : Option String) :
    ∀ (targets : List String) (e : CErrType),
      get_conversion conv strat amount in_currency targets = .error e →
      e = netErr conv := by
  intro targets
  induction targets with
  | nil => intro e h; simp [get_conversion] at h
  | cons t ts ih =>
    intro e h
    rw [get_conversion] at h
    by_cases hc : some t = in_currency
    · simp only [hc, if_pos rfl] at h
      rcases hrec : get_conversion conv strat amount in_currency ts with e' | m
      · rw [hrec] at h; simp at h; subst h; exact ih e' hrec
      · rw [hrec] at h; simp at h
    · simp only [if_neg hc] at h
      cases hs : strat conv t with
      | ok v =>
        rw [hs] at h
        rcases hrec : get_conversion conv strat amount in_currency ts with e' | m
        · rw [hrec] at h; simp at h; subst h; exact ih e' hrec
        · rw [hrec] at h; simp at h
      | unsupported => rw [hs] at h; exact ih e h
      | network => rw [hs] at h; simp at h; subst h; rfl

theorem gc_ok_keys (conv : Conv) (strat : Conv → String → StratOutcome)
    (amount : ℚ) (in_currency : Option String) :
    ∀ targets : List String,
      (∀ t ∈ targets, some t = in_currency ∨ (strat conv t).isNetwork = false) →
      ∃ m, get_conversion conv strat amount in_currency targets = .ok m ∧
        m.map Prod.fst = targets.filter
          (fun t => decide (some t = in_currency) ||
            !(strat conv t).isUnsupported) := by
  intro targets
  induction targets with
  | nil => intro _; exact ⟨[], rfl, rfl⟩
  | cons t ts ih =>
    intro hall
    obtain ⟨m, hm, hkeys⟩ := ih (fun x hx => hall x (List.mem_cons_of_mem t hx))
    rw [get_conversion]
    by_cases hc : some t = in_currency
    · refine ⟨(t, amount) :: m, ?_, ?_⟩
      · rw [if_pos hc, hm]
      · simp [List.filter_cons, hc, hkeys]
    · rcases hall t (List.mem_cons_self t ts) with h | hnet
      · exact absurd h hc
      · simp only [if_neg hc]
        cases hs : strat conv t with
        | ok v =>
          refine ⟨(t, round2 v) :: m, ?_, ?_⟩
          · rw [hm]
          · simp [List.filter_cons, hc, hs, StratOutcome.isUnsupported, hkeys]
        | unsupported =>
          refine ⟨m, hm, ?_⟩
          simp [List.filter_cons, hc, hs, StratOutcome.isUnsupported, hkeys]
        | network =>
          rw [hs] at hnet
          simp [StratOutcome.isNetwork] at hnet

theorem gcT_fst (conv : Conv) (strat : Conv → String → StratOutcome)
    (amount : ℚ) (in_currency : Option String) :
    ∀ targets : List String,
      (get_conversionT conv strat amount in_currency targets).1 =
        get_conversion conv strat amount in_currency targets := by
  intro targets
  induction targets with
  | nil => rfl
  | cons t ts ih =>
    rw [get_conversionT, get_conversion]
    by_cases hc : some t = in_currency
    · rw [if_pos hc, if_pos hc]
      rcases hrec : get_conversionT conv strat amount in_currency ts with ⟨r, tr⟩
      rw [hrec] at ih
      rw [← ih]
      cases r <;> simp
    · rw [if_neg hc, if_neg hc]
      cases hs : strat conv t with
      | ok v =>
        rcases hrec : get_conversionT conv strat amount in_currency ts with ⟨r, tr⟩
        rw [hrec] at ih
        rw [← ih]
        cases r <;> simp
      | unsupported =>
        rcases hrec : get_conversionT conv strat amount in_currency ts with ⟨r, tr⟩
        rw [hrec] at ih
        rw [← ih]
      | network => rfl

theorem gcT_ok_props (conv : Conv) (strat : Conv → String → StratOutcome)
    (amount : ℚ) (in_currency : Option String) :
    ∀ (targets : List String) (m : List (String × ℚ)) (tr : List String),
      get_conversionT conv strat amount in_currency targets = (.ok m, tr) →
      (∀ p ∈ m, (some p.1 = in_currency → p.2 = amount) ∧
        (some p.1 ≠ in_currency → rounded2 p.2)) ∧
      (∀ t ∈ tr, some t ≠ in_currency) := by
  intro targets
  induction targets with
  | nil =>
    intro m tr h
    rw [get_conversionT] at h
    injection h with h1 h2
    injection h1 with h1
    subst h1; subst h2
    exact ⟨by simp, by simp⟩
  | cons t ts ih =>
    intro m tr h
    rw [get_conversionT] at h
    by_cases hc : some t = in_currency
    · rw [if_pos hc] at h
      rcases hrec : get_conversionT conv strat amount in_currency ts with ⟨r, tr'⟩
      rw [hrec] at h
      cases r with
      | error e => simp at h
      | ok m' =>
        simp only at h
        injection h with h1 h2
        injection h1 with h1
        subst h1; subst h2
        obtain ⟨hm', htr'⟩ := ih m' tr' hrec
        refine ⟨?_, htr'⟩
        intro p hp
        rcases List.mem_cons.mp hp with hp | hp
        · subst hp
          exact ⟨fun _ => rfl, fun hne => absurd hc hne⟩
        · exact hm' p hp
    · rw [if_neg hc] at h
      cases hs : strat conv t with
      | ok v =>
        rw [hs] at h
        rcases hrec : get_conversionT conv strat amount in_currency ts with ⟨r, tr'⟩
        rw [hrec] at h
        cases r with
        | error e => simp at h
        | ok m' =>
          simp only at h
          injection h with h1 h2
          injection h1 with h1
          subst h1; subst h2
          obtain ⟨hm', htr'⟩ := ih m' tr' hrec
          refine ⟨?_, ?_⟩
          · intro p hp
            rcases List.mem_cons.mp hp with hp | hp
            · subst hp
              exact ⟨fun habs => absurd habs hc, fun _ => rounded2_round2 v⟩
            · exact hm' p hp
          · intro x hx
            rcases List.mem_cons.mp hx with hx | hx
            · subst hx; exact hc
            · exact htr' x hx
      | unsupported =>
        rw [hs] at h
        rcases hrec : get_conversionT conv strat amount in_currency ts with ⟨r, tr'⟩
        rw [hrec] at h
        simp only at h
        injection h with h1 h2
        subst h1; subst h2
        obtain ⟨hm', htr'⟩ := ih m tr' hrec
        refine ⟨hm', ?_⟩
        intro x hx
        rcases List.mem_cons.mp hx with hx | hx
        · subst hx; exact hc
        · exact htr' x hx
      | network =>
        rw [hs] at h
        simp at h

/-- C1: with the XE method preferred and every convert call failing with
its network-level ConversionError, main runs the other (OER) strategy
exactly once on the identical request - the attempts trace is [xe, oer],
never a third - and the retrying invocation (first_try False) returns
severity 2 with the both-methods-failed message; the top-level main then
wraps that pair as the payload of a severity-0 return (the fall-through
return [0, output] of line 311), so the caller of main receives severity 0
rather than the claimed severity 2. -/
theorem main_both_fail_eval :
    main bothFailEnv none true =
      .returns 0 (.nested 2 (.message "Conversion failed."))
        [Conv.xe, Conv.oer] ∧
    main bothFailEnv (some .oer) false =
      .returns 2 (.message "Conversion failed.") [Conv.oer] := by
  constructor
  · rw [main, main]; rfl
  · rw [main]; rfl

/-- C2 counterexample: at the same stale-cache-and-dead-network state the
currency loader adopts the stale payload without error, while the rate
loader raises ConversionError(oer_error) instead of adopting its stale
payload - the rate-table loader has no staleness fallback, so the claimed
identical soft-degradation policy is false. -/
theorem rates_stale_fallback_cex :
    load_currencies 1000 100 (.present 0 (some demoCurrs)) none
      = .ok (demoCurrs, none) ∧
    load_rates 1000 100 (.present 0 (some demoRates)) none
      = .error (.convError .oer_error) :=
  ⟨rfl, rfl⟩

/-- C2 amended: for any expired parseable cache and failing remote fetch,
the currency-directory loader adopts the stale payload and raises no
error, but the rate-table loader raises ConversionError(oer_error); the
soft-degradation refresh policy holds only for the currency directory. -/
theorem stale_fallback_currencies_only (now w ts : ℤ) (p : Currencies)
    (r : Rates) (hstale : now - ts > w) :
    load_currencies now w (.present ts (some p)) none = .ok (p, none) ∧
    load_rates now w (.present ts (some r)) none
      = .error (.convError .oer_error) := by
  constructor
  · simp [load_currencies, hstale]
  · simp [load_rates, hstale]

/-- Witness for the amended C2 statement at a concrete stale state. -/
theorem stale_fallback_currencies_only_witness :
    load_currencies 500 50 (.present 100 (some demoCurrs)) none
      = .ok (demoCurrs, none) ∧
    load_rates 500 50 (.present 100 (some demoRates)) none
      = .error (.convError .oer_error) :=
  stale_fallback_currencies_only 500 50 100 demoCurrs demoRates (by decide)

/-- C6: for a missing or unreadable cache with a failing fetch the
directory loader raises ConversionError(no_currs_data) and main returns
severity 2 with no strategy attempt, as claimed; but for the malformed
cache envelope that has a valid timestamp and no currencies key (expired
here), the loader instead hits the unguarded payload access - an uncaught
Python KeyError - and main crashes rather than reporting no_currs_data. -/
theorem no_currs_data_eval :
    load_currencies 1000 100 CacheFile.missing none
      = .error (.convError .no_currs_data) ∧
    main noCurrsEnv none true
      = .returns 2 (.message "No currencies data available.") [] ∧
    load_currencies 1000 100 (.present 0 none) none = .error .keyError ∧
    main { noCurrsEnv with currCache := .present 0 none } none true
      = .crash [] := by
  refine ⟨rfl, ?_, rfl, ?_⟩ <;> (rw [main]; rfl)

/-- C8 counterexample: a successful rates refresh at local time 200
persists the envelope that save_rates builds from the OER response, whose
timestamp is the response's own timestamp 100, not the current time 200 -
so the claimed timestamp-equals-now property fails for the rates cache. -/
theorem save_rates_timestamp_cex :
    load_rates 200 50 .missing (some ⟨100, demoRates⟩)
      = .ok (demoRates, some (save_rates ⟨100, demoRates⟩)) ∧
    (save_rates ⟨100, demoRates⟩).timestamp = 100 ∧ (100 : ℤ) ≠ 200 :=
  ⟨rfl, rfl, by decide⟩

/-- C8 amended: every successful refresh overwrites the whole envelope
with the full new payload and nothing of the prior file survives; the
currencies envelope carries timestamp now, while the rates envelope
carries the timestamp field of the fetched OER response, which need not
equal the fetch time. -/
theorem save_whole_envelope (now w ts : ℤ) (plc : Option Currencies)
    (plr : Option Rates) (p : Currencies) (resp : OERResponse)
    (hstale : now - ts > w) :
    save_currencies now p = ⟨now, p⟩ ∧
    save_rates resp = ⟨resp.timestamp, resp.rates⟩ ∧
    load_currencies now w .missing (some p) = .ok (p, some ⟨now, p⟩) ∧
    load_rates now w .missing (some resp)
      = .ok (resp.rates, some ⟨resp.timestamp, resp.rates⟩) ∧
    load_currencies now w (.present ts plc) (some p)
      = .ok (p, some ⟨now, p⟩) ∧
    load_rates now w (.present ts plr) (some resp)
      = .ok (resp.rates, some ⟨resp.timestamp, resp.rates⟩) := by
  refine ⟨rfl, rfl, rfl, rfl, ?_, ?_⟩
  · simp [load_currencies, hstale, save_currencies]
  · simp [load_rates, hstale, save_rates]

/-- Witness for the amended C8 statement at a concrete refresh. -/
theorem save_whole_envelope_witness :
    save_currencies 300 demoCurrs = ⟨300, demoCurrs⟩ ∧
    save_rates ⟨250, demoRates⟩ = ⟨250, demoRates⟩ ∧
    load_currencies 300 10 .missing (some demoCurrs)
      = .ok (demoCurrs, some ⟨300, demoCurrs⟩) ∧
    load_rates 300 10 .missing (some ⟨250, demoRates⟩)
      = .ok (demoRates, some ⟨250, demoRates⟩) ∧
    load_currencies 300 10 (.present 100 (some demoCurrs)) (some demoCurrs)
      = .ok (demoCurrs, some ⟨300, demoCurrs⟩) ∧
    load_rates 300 10 (.present 100 (some demoRates)) (some ⟨250, demoRates⟩)
      = .ok (demoRates, some ⟨250, demoRates⟩) :=
  save_whole_envelope 300 10 100 (some demoCurrs) (some demoRates) demoCurrs
    ⟨250, demoRates⟩ (by decide)

theorem convertT_trace (rates : Rates) (amount : ℚ)
    (in_currency out_currency : String) :
    (ConverterOER.convertT rates amount in_currency out_currency).2 =
      if in_currency ≠ "USD" ∧ out_currency ≠ "USD" ∧
          (rates.lookup in_currency).isSome
      then ["USD"] else [] := by
  by_cases h1 : in_currency = "USD"
  · rw [if_neg (by simp [h1])]
    subst h1
    rw [convertT_usd]
  · by_cases h2 : out_currency = "USD"
    · rw [if_neg (by simp [h2])]
      rw [ConverterOER.convertT]
      simp only [dif_neg h1, if_pos h2]
      cases rates.lookup in_currency <;> simp
    · rw [ConverterOER.convertT]
      simp only [dif_neg h1, if_neg h2]
      cases hl : rates.lookup in_currency with
      | some r =>
        rw [if_pos ⟨h1, h2, by simp [hl]⟩]
        simp [convertT_usd]
      | none =>
        rw [if_neg (by simp [hl])]

/-- C3: whenever both requested codes are present in the rate table,
ConverterOER.convert returns amount times the output rate when converting
from USD, amount divided by the input rate when converting to USD, and the
recursive USD pivot (amount divided by the input rate, then times the
output rate) when neither side is USD. -/
theorem oer_pivot_formula (rates : Rates) (amount ri ro : ℚ)
    (in_currency out_currency : String)
    (hin : rates.lookup in_currency = some ri)
    (hout : rates.lookup out_currency = some ro) :
    (in_currency = "USD" →
      ConverterOER.convert rates amount in_currency out_currency
        = .ok (amount * ro)) ∧
    (in_currency ≠ "USD" → out_currency = "USD" →
      ConverterOER.convert rates amount in_currency out_currency
        = .ok (amount / ri)) ∧
    (in_currency ≠ "USD" → out_currency ≠ "USD" →
      ConverterOER.convert rates amount in_currency out_currency
        = .ok ((amount / ri) * ro)) := by
  refine ⟨?_, ?_, ?_⟩
  · intro h; subst h
    rw [convert_usd, hout]
  · intro h1 h2; subst h2
    rw [ConverterOER.convert]
    simp only [dif_neg h1]
    rw [hin]
    simp
  · intro h1 h2
    rw [ConverterOER.convert]
    simp only [dif_neg h1, if_neg h2]
    rw [hin]
    show ConverterOER.convert rates (amount / ri) "USD" out_currency
      = Except.ok (amount / ri * ro)
    rw [convert_usd, hout]

/-- Witness for C3 on the pivot path: 100 EUR to GBP with rates
EUR 9/10 and GBP 4/5 per USD gives (100 / (9/10)) * (4/5). -/
theorem oer_pivot_formula_witness :
    ConverterOER.convert demoRates 100 "EUR" "GBP"
      = .ok ((100 / (9/10)) * (4/5)) :=
  (oer_pivot_formula demoRates 100 (9/10) (4/5) "EUR" "GBP" rfl rfl).2.2
    (by decide) (by decide)

/-- C4: with a response in hand, ConverterXE.convert returns the parsed
amount exactly when both echoed codes equal the requested ones and raises
ConversionError(unsupported) otherwise; a failing get_response raises
ConversionError(xe_error), a distinct error tag. -/
theorem xe_integrity_check (response : XEResponse)
    (in_currency out_currency : String) :
    (ConverterXE.convert (some response) in_currency out_currency =
      if response.fromCurr = in_currency ∧ response.toCurr = out_currency
      then .ok response.converted else .error .unsupported) ∧
    ConverterXE.convert none in_currency out_currency = .error .xe_error ∧
    CErrType.unsupported ≠ CErrType.xe_error := by
  refine ⟨?_, rfl, by decide⟩
  by_cases h : response.fromCurr = in_currency ∧ response.toCurr = out_currency
  · have hcr : ConverterXE.check_response in_currency out_currency response
        = none := by
      simp [ConverterXE.check_response, h.1, h.2]
    simp [ConverterXE.convert, hcr, if_pos h]
  · have hcr : ConverterXE.check_response in_currency out_currency response
        = some false := by
      rw [ConverterXE.check_response, if_pos (not_and_or.mp h)]
    simp [ConverterXE.convert, hcr, if_neg h]

/-- Witness for C4: an echoed USD/USD answer to a USD-to-EUR request is
rejected as unsupported, a matching echo returns the amount, and a failed
request gives the xe_error tag. -/
theorem xe_integrity_check_witness :
    ConverterXE.convert (some ⟨42, "USD", "USD"⟩) "USD" "EUR"
      = .error .unsupported ∧
    ConverterXE.convert (some ⟨42, "USD", "EUR"⟩) "USD" "EUR" = .ok 42 ∧
    ConverterXE.convert none "USD" "EUR" = .error .xe_error := by
  have h1 := (xe_integrity_check ⟨42, "USD", "USD"⟩ "USD" "EUR").1
  have h2 := (xe_integrity_check ⟨42, "USD", "EUR"⟩ "USD" "EUR").1
  have h3 := (xe_integrity_check ⟨42, "USD", "USD"⟩ "USD" "EUR").2.1
  rw [if_neg (by decide)] at h1
  rw [if_pos (by decide)] at h2
  exact ⟨h1, h2, h3⟩

/-- C9: the OER convert recursion is bounded: the instrumented run makes
at most one recursive self-call, every self-call has USD as its input
currency (hence takes the non-recursive branch), the instrumented result
agrees with ConverterOER.convert, and on the pivot path with the input
code present exactly one self-call happens. -/
theorem oer_depth_bound (rates : Rates) (amount : ℚ)
    (in_currency out_currency : String) :
    (ConverterOER.convertT rates amount in_currency out_currency).2.length
      ≤ 1 ∧
    (∀ s ∈ (ConverterOER.convertT rates amount in_currency out_currency).2,
      s = "USD") ∧
    (ConverterOER.convertT rates amount in_currency out_currency).1 =
      ConverterOER.convert rates amount in_currency out_currency ∧
    (in_currency ≠ "USD" → out_currency ≠ "USD" →
      ∀ r, rates.lookup in_currency = some r →
        (ConverterOER.convertT rates amount in_currency out_currency).2
          = ["USD"]) := by
  refine ⟨?_, ?_, convertT_fst rates amount in_currency out_currency, ?_⟩
  · rw [convertT_trace]
    split <;> simp
  · rw [convertT_trace]
    split
    · intro s hs
      simpa using hs
    · intro s hs
      simp at hs
  · intro h1 h2 r hr
    rw [convertT_trace, if_pos ⟨h1, h2, by simp [hr]⟩]

/-- Witness for C9 on the pivot path: converting EUR to GBP makes exactly
the one USD self-call and agrees with the plain convert. -/
theorem oer_depth_bound_witness :
    (ConverterOER.convertT demoRates 100 "EUR" "GBP").2 = ["USD"] ∧
    (ConverterOER.convertT demoRates 100 "EUR" "GBP").1 =
      ConverterOER.convert demoRates 100 "EUR" "GBP" :=
  ⟨(oer_depth_bound demoRates 100 "EUR" "GBP").2.2.2 (by decide) (by decide)
      (9/10) rfl,
    (oer_depth_bound demoRates 100 "EUR" "GBP").2.2.1⟩

/-- C5: the conversion loop can only abort with the network error tag of
the running strategy (so an unsupported error from a target never reaches
the retry logic in main, which only ever matches xe_error and oer_error),
and when no target raises the network error the loop succeeds with a map
whose keys are exactly the targets that are the input currency itself or
did not raise unsupported - each unsupported target is silently omitted
while every other target keeps its entry. -/
theorem unsupported_never_falls_back (conv : Conv)
    (strat : Conv → String → StratOutcome) (amount : ℚ)
    (in_currency : Option String) (targets : List String) :
    (∀ e, get_conversion conv strat amount in_currency targets = .error e →
      e = netErr conv) ∧
    ((∀ t ∈ targets, some t = in_currency ∨ (strat conv t).isNetwork = false) →
      ∃ m, get_conversion conv strat amount in_currency targets = .ok m ∧
        m.map Prod.fst = targets.filter
          (fun t => decide (some t = in_currency) ||
            !(strat conv t).isUnsupported)) :=
  ⟨fun e h => gc_error_net conv strat amount in_currency targets e h,
   fun hall => gc_ok_keys conv strat amount in_currency targets hall⟩

/-- Witness for C5: three targets from USD where GBP alone raises
unsupported - the result map keeps EUR and CZK and omits GBP. -/
theorem unsupported_never_falls_back_witness :
    ∃ m, get_conversion .xe skipGBPStrat 100 (some "USD")
        ["EUR", "GBP", "CZK"] = .ok m ∧
      m.map Prod.fst = (["EUR", "GBP", "CZK"]).filter
        (fun t => decide (some t = some "USD") ||
          !(skipGBPStrat .xe t).isUnsupported) :=
  (unsupported_never_falls_back .xe skipGBPStrat 100 (some "USD")
    ["EUR", "GBP", "CZK"]).2 (by decide)

/-- C7 counterexample: with amount 1/8 (exactly representable in binary
floating point) and the sole target equal to the input currency, the loop
returns the map with the unrounded original amount 1/8, which is not an
integer number of hundredths - so the claim that every presented amount is
rounded to 2 decimal places fails; the instrumented trace confirms no
strategy call was made. -/
theorem shortcircuit_not_rounded_cex :
    get_conversion .xe networkStrat (1/8) (some "EUR") ["EUR"]
      = .ok [("EUR", (1/8 : ℚ))] ∧
    (get_conversionT .xe networkStrat (1/8) (some "EUR") ["EUR"]).2 = [] ∧
    ¬ rounded2 (1/8) := by
  refine ⟨rfl, rfl, ?_⟩
  rintro ⟨n, hn⟩
  have h2 : (100 : ℚ) = (n : ℚ) * 8 := by
    field_simp at hn
    linarith
  have h3 : (100 : ℤ) = n * 8 := by exact_mod_cast h2
  omega

/-- C7 amended: whenever the conversion loop succeeds, every entry whose
code differs from the input currency carries a converted amount rounded to
2 decimal places, an entry equal to the input currency carries the
original input amount unrounded, and no strategy call is made for input-
currency targets (every target in the call trace differs from the input
currency). -/
theorem rounding_and_shortcircuit (conv : Conv)
    (strat : Conv → String → StratOutcome) (amount : ℚ)
    (in_currency : Option String) (targets : List String)
    (m : List (String × ℚ)) (tr : List String)
    (h : get_conversionT conv strat amount in_currency targets = (.ok m, tr)) :
    get_conversion conv strat amount in_currency targets = .ok m ∧
    (∀ p ∈ m, (some p.1 = in_currency → p.2 = amount) ∧
      (some p.1 ≠ in_currency → rounded2 p.2)) ∧
    (∀ t ∈ tr, some t ≠ in_currency) := by
  refine ⟨?_, (gcT_ok_props conv strat amount in_currency targets m tr h).1,
    (gcT_ok_props conv strat amount in_currency targets m tr h).2⟩
  have hf := gcT_fst conv strat amount in_currency targets
  rw [h] at hf
  exact hf.symm

/-- Witness for the amended C7 statement: targets USD and EUR from USD
keep the raw amount for USD, a rounded amount for EUR, and the strategy
ran only for EUR. -/
theorem rounding_and_shortcircuit_witness :
    get_conversion .xe okStrat 100 (some "USD") ["USD", "EUR"]
      = .ok [("USD", 100), ("EUR", round2 90)] ∧
    (∀ p ∈ [("USD", (100 : ℚ)), ("EUR", round2 90)],
      (some p.1 = some "USD" → p.2 = 100) ∧
      (some p.1 ≠ some "USD" → rounded2 p.2)) ∧
    (∀ t ∈ ["EUR"], some t ≠ some "USD") :=
  rounding_and_shortcircuit .xe okStrat 100 (some "USD") ["USD", "EUR"]
    [("USD", 100), ("EUR", round2 90)] ["EUR"] rfl

/-- C10: a token that is neither a known code nor a known symbol resolves
to ok-none when checked as the output currency (so App proceeds with
out_currency None, which selects the full known-code list as targets when
no override is configured), while the same token checked as the input
currency raises ValueError, which main turns into the severity-1
client-input failure with no strategy attempt. -/
theorem invalid_out_none_invalid_in_fatal (currs : Currencies) (s : String)
    (hcode : currs.lookup s = none) (hsym : symbolLookup currs s = none) :
    check_currency currs (some s) .output = .ok none ∧
    check_currency currs (some s) .input = .error () ∧
    (∀ known, selectTargets none none known = known) ∧
    (∀ env : Env, env.configOk = true →
      ∀ sv, load_currencies env.now env.curr_exp env.currCache env.currFetch
          = .ok (currs, sv) →
        ((env.outToken = some s →
          ∀ inC, check_currency currs env.inToken .input = .ok inC →
            appInit env = .ok ⟨currs, env.amount, inC, none⟩) ∧
        (env.inToken = some s →
          ∀ ov ft, main env ov ft = .returns 1
            (.message
              "Given input currency is not a valid currency code or symbol.")
            []))) := by
  have hout : check_currency currs (some s) .output = .ok none := by
    simp [check_currency, hcode, hsym]
  have hin : check_currency currs (some s) .input = .error () := by
    simp [check_currency, hcode, hsym]
  refine ⟨hout, hin, fun known => rfl, ?_⟩
  intro env hcfg sv hload
  constructor
  · intro houted inC hinC
    simp [appInit, hcfg, hload, hinC, houted, hout]
  · intro hined ov ft
    have hinit : appInit env = .error .badInput := by
      simp [appInit, hcfg, hload, hined, hin]
    rw [main, hinit]

/-- Witness for C10 at the demo directory with the unknown token QQQ. -/
theorem invalid_out_none_invalid_in_fatal_witness :
    check_currency demoCurrs (some "QQQ") .output = .ok none ∧
    main badInEnv none true = .returns 1
      (.message "Given input currency is not a valid currency code or symbol.")
      [] := by
  have h := invalid_out_none_invalid_in_fatal demoCurrs "QQQ" rfl rfl
  exact ⟨h.1, (h.2.2.2 badInEnv rfl none rfl).2 rfl none true⟩
